import Mathlib

/-!
Shallow embedding of the latte-locator café-discovery service core:
the cache key builder and distance formatter (src/lib/utils/helpers.ts),
the bounded TTL in-memory cache (lib/cache/memoryCache.ts), and the
provider adapter / request handler (src/app/api/cafes/route.ts).

JavaScript numbers are modelled as exact rationals (`ℚ`), together with
an explicit `JSNum` wrapper for the NaN / Infinity values that
`parseFloat` can produce.  Transcendental library functions
(`Math.sin`, `Math.cos`) compute double-precision approximations; they
are passed in as explicit function parameters, as is the outcome of the
`Math.random()` randomness source (a stream `ℕ → ℚ` of draws from
[0,1)).  The JS `Map` backing the cache is modelled as an
insertion-ordered association list.
-/

set_option maxRecDepth 100000

namespace LatteLocator

/-! ### Decimal printing (JS number-to-string for integers) -/

/-- The decimal digit character for `d < 10` (JS digit printing). -/
def digitChar : ℕ → Char
  | 0 => '0'
  | 1 => '1'
  | 2 => '2'
  | 3 => '3'
  | 4 => '4'
  | 5 => '5'
  | 6 => '6'
  | 7 => '7'
  | 8 => '8'
  | 9 => '9'
  | _ => 'X'

/-- Fuel-driven digit expansion, most significant digit first. -/
def natReprAux : ℕ → ℕ → List Char
  | 0, _ => []
  | fuel + 1, n => if n = 0 then [] else natReprAux fuel (n / 10) ++ [digitChar (n % 10)]

/-- Decimal representation of a natural number, as JS prints it. -/
def natRepr (n : ℕ) : List Char :=
  if n = 0 then ['0'] else natReprAux (n + 1) n

def natStr (n : ℕ) : String := String.mk (natRepr n)

/-- Decimal representation of an integer, as JS prints it. -/
def intStr (i : ℤ) : String :=
  (if i < 0 then "-" else "") ++ natStr i.natAbs

def charVal (c : Char) : ℕ := c.toNat - 48

def valOf (l : List Char) : ℕ := l.foldl (fun a c => 10 * a + charVal c) 0

theorem charVal_digitChar : ∀ d < 10, charVal (digitChar d) = d := by decide

theorem valOf_append (l₁ l₂ : List Char) :
    valOf (l₁ ++ l₂) = l₂.foldl (fun a c => 10 * a + charVal c) (valOf l₁) := by
  simp [valOf, List.foldl_append]

theorem valOf_natReprAux : ∀ fuel n, n ≤ fuel → valOf (natReprAux fuel n) = n := by
  intro fuel
  induction fuel with
  | zero => intro n hn; interval_cases n; simp [natReprAux, valOf]
  | succ f ih =>
    intro n hn
    by_cases h0 : n = 0
    · simp [natReprAux, h0, valOf]
    · have hdiv : n / 10 ≤ f := by
        have := Nat.div_lt_self (Nat.pos_of_ne_zero h0) (by norm_num : 1 < 10)
        omega
      have h1 := ih (n / 10) hdiv
      have h2 := charVal_digitChar (n % 10) (Nat.mod_lt _ (by norm_num))
      simp only [natReprAux, h0, if_false, valOf_append, List.foldl_cons, List.foldl_nil]
      rw [h1, h2]
      omega

theorem valOf_natRepr (n : ℕ) : valOf (natRepr n) = n := by
  by_cases h0 : n = 0
  · simp [natRepr, h0, valOf, charVal]
  · simp only [natRepr, h0, if_false]
    exact valOf_natReprAux (n + 1) n (by omega)

theorem natRepr_injective : Function.Injective natRepr := by
  intro m n h
  have := valOf_natRepr m
  rw [h, valOf_natRepr] at this
  omega

theorem natReprAux_digits :
    ∀ fuel n c, c ∈ natReprAux fuel n → ∃ d, d < 10 ∧ c = digitChar d := by
  intro fuel
  induction fuel with
  | zero => intro n c hc; simp [natReprAux] at hc
  | succ f ih =>
    intro n c hc
    by_cases h0 : n = 0
    · simp [natReprAux, h0] at hc
    · simp only [natReprAux, h0, if_false, List.mem_append, List.mem_singleton] at hc
      rcases hc with hc | hc
      · exact ih _ _ hc
      · exact ⟨n % 10, Nat.mod_lt _ (by norm_num), hc⟩

theorem natRepr_digits (n : ℕ) (c : Char) (hc : c ∈ natRepr n) :
    ∃ d, d < 10 ∧ c = digitChar d := by
  by_cases h0 : n = 0
  · simp [natRepr, h0] at hc
    exact ⟨0, by norm_num, hc⟩
  · simp only [natRepr, h0, if_false] at hc
    exact natReprAux_digits _ _ _ hc

theorem natRepr_ne_nil (n : ℕ) : natRepr n ≠ [] := by
  by_cases h0 : n = 0
  · simp [natRepr, h0]
  · intro h
    have := valOf_natRepr n
    rw [h] at this
    simp [valOf] at this
    omega

theorem digitChar_ne : ∀ d < 10,
    digitChar d ≠ ',' ∧ digitChar d ≠ ':' ∧ digitChar d ≠ '.' ∧ digitChar d ≠ '-' := by
  decide

/-! ### `toFixed` (JS Number.prototype.toFixed, over exact rationals) -/

/-- Three-character zero-padded decimal of `k % 1000`, used for the
fractional part of `toFixed(3)`. -/
def pad3 (k : ℕ) : List Char :=
  [digitChar (k / 100 % 10), digitChar (k / 10 % 10), digitChar (k % 10)]

/-- JS `x.toFixed(1)`: sign of `x`, then the magnitude rounded to one
decimal place (ties away from zero, per ECMA ToFixed on the magnitude). -/
def toFixed1 (q : ℚ) : String :=
  let n : ℕ := (⌊(if q < 0 then -q else q) * 10 + 1 / 2⌋).toNat
  (if q < 0 then "-" else "") ++ natStr (n / 10) ++ "." ++ String.mk [digitChar (n % 10)]

/-- JS `x.toFixed(3)`: sign of `x`, then the magnitude rounded to three
decimal places. -/
def toFixed3 (q : ℚ) : String :=
  let n : ℕ := (⌊(if q < 0 then -q else q) * 1000 + 1 / 2⌋).toNat
  (if q < 0 then "-" else "") ++ natStr (n / 1000) ++ "." ++ String.mk (pad3 (n % 1000))

/-- The signed value (scaled by 1000) that `toFixed(3)` rounds a
coordinate to: "the coordinate rounded to 3 decimal places" times 1000. -/
def rounded3 (q : ℚ) : ℤ :=
  if q < 0 then -((⌊(-q) * 1000 + 1 / 2⌋).toNat : ℤ) else (⌊q * 1000 + 1 / 2⌋).toNat

/-! ### JS numbers produced by parsing -/

/-- A JS number as produced by `parseFloat`: NaN, ±Infinity, or a finite
value (an exact rational in this model). -/
inductive JSNum where
  | nan : JSNum
  | inf : Bool → JSNum
  | num : ℚ → JSNum
deriving DecidableEq

/-- JS truthiness of a number: `false` exactly for NaN and ±0. -/
def jsTruthy : JSNum → Bool
  | .nan => false
  | .inf _ => true
  | .num q => decide (q ≠ 0)

/-- Rendering of `x.toFixed(3)` on a general JS number. -/
def jsToFixed3 : JSNum → String
  | .nan => "NaN"
  | .inf false => "Infinity"
  | .inf true => "-Infinity"
  | .num q => toFixed3 q

/-! ### helpers.ts -/

/-- Model of `SearchParams` (types/index.ts): `latitude` and `longitude` are JS
numbers; `radius` is the result of `parseInt` (`none` models NaN);
`query` a string. -/
structure SearchParams where
  latitude : JSNum
  longitude : JSNum
  radius : Option ℤ
  query : String
deriving DecidableEq

/-- String interpolation of the parsed radius (`NaN` prints as "NaN"). -/
def radiusRepr : Option ℤ → String
  | none => "NaN"
  | some r => intStr r

/-- Model of `getCacheKey` (helpers.ts lines 4-10): rounds the coordinates to 3
decimal places with `toFixed(3)` and concatenates
`cafes:LAT,LNG:RADIUS:QUERY`.  (The `radius = 5000` destructuring
default never fires: the sole caller always passes a number.) -/
def getCacheKey (p : SearchParams) : String :=
  "cafes:" ++ jsToFixed3 p.latitude ++ "," ++ jsToFixed3 p.longitude ++ ":"
    ++ radiusRepr p.radius ++ ":" ++ p.query

/-- JS `Math.round`: floor of `x + 1/2` (half towards +∞). -/
def jsRound (q : ℚ) : ℤ := ⌊q + 1 / 2⌋

/-- Model of `formatDistance` (helpers.ts lines 33-38). -/
def formatDistance (m : ℚ) : String :=
  if m < 1000 then intStr (jsRound m) ++ " m"
  else toFixed1 (m / 1609.34) ++ " mi"

/-! ### Domain records (types/index.ts, as populated by route.ts) -/

/-- A `Cafe` record as built by route.ts.  `actualDistance` is the
transient numeric distance (`some` until the final `map` strips it). -/
structure Cafe where
  id : ℕ
  googlePlaceId : String
  name : String
  address : String
  latitude : ℚ
  longitude : ℚ
  rating : ℚ
  priceLevel : ℕ
  distance : String
  crowdLevel : ℕ
  predictedWait : String
  tags : List String
  aiScore : ℕ
  cached : Bool
  openNow : Bool
  actualDistance : Option ℚ
deriving DecidableEq

/-- The payload the handler caches and returns: a café list plus an
optional continuation token. -/
structure FetchResult where
  cafes : List Cafe
  nextPageToken : Option String
deriving DecidableEq

/-! ### lib/cache/memoryCache.ts -/

/-- Model of `CacheEntry` (types/index.ts). -/
structure CacheEntry where
  key : String
  data : FetchResult
  timestamp : ℤ
deriving DecidableEq

def MEMORY_CACHE_TTL : ℤ := 5 * 60 * 1000

def MAX_MEMORY_CACHE_SIZE : ℕ := 100

/-- The JS `Map` backing the cache, as an insertion-ordered list. -/
abbrev Cache := List CacheEntry

/-- Model of `Map.prototype.get`: the (unique) entry stored under `k`. -/
def mapFind? : Cache → String → Option CacheEntry
  | [], _ => none
  | e :: m, k => if e.key = k then some e else mapFind? m k

/-- Model of `Map.prototype.delete`: removes the entry stored under `k`. -/
def mapDelete : Cache → String → Cache
  | [], _ => []
  | e :: m, k => if e.key = k then m else e :: mapDelete m k

/-- Model of `Map.prototype.set`: overwrites in place when the key is present
(keeping its insertion-order position), otherwise appends at the end. -/
def mapSet : Cache → CacheEntry → Cache
  | [], e => [e]
  | x :: m, e => if x.key = e.key then e :: m else x :: mapSet m e

/-- The keys currently held, oldest first. -/
def cacheKeys (m : Cache) : List String := m.map (fun e => e.key)

namespace MemoryCache

/-- Model of `MemoryCache.get` (memoryCache.ts lines 14-25): lazy expiry at read
time.  Returns the value (or `none`) and the possibly-shrunk store. -/
def get (m : Cache) (key : String) (now : ℤ) : Option FetchResult × Cache :=
  match mapFind? m key with
  | none => (none, m)
  | some cached =>
      if now - cached.timestamp > MEMORY_CACHE_TTL then (none, mapDelete m key)
      else (some cached.data, m)

/-- Model of `MemoryCache.set` (memoryCache.ts lines 27-41): when
`size >= MAX_MEMORY_CACHE_SIZE`, deletes the first key of the map —
unless that key is falsy (the empty string) — then stores the entry. -/
def set (m : Cache) (key : String) (data : FetchResult) (now : ℤ) : Cache :=
  let m₁ :=
    if MAX_MEMORY_CACHE_SIZE ≤ m.length then
      match m.head? with
      | some first => if first.key = "" then m else mapDelete m first.key
      | none => m
    else m
  mapSet m₁ ⟨key, data, now⟩

/-- Model of `MemoryCache.delete` (memoryCache.ts lines 43-45). -/
def erase (m : Cache) (key : String) : Cache := mapDelete m key

/-- Model of `MemoryCache.clear` (memoryCache.ts lines 47-49). -/
def clear (_ : Cache) : Cache := []

/-- Model of `MemoryCache.size` (memoryCache.ts lines 51-53). -/
def size (m : Cache) : ℕ := m.length

end MemoryCache

/-! ### route.ts: the mock generator and provider adapter -/

/-- Model of `CAFE_NAMES` (route.ts lines 214-217). -/
def CAFE_NAMES : List String :=
  ["Blue Bottle Coffee", "Starbucks Reserve", "Peet\x27s Coffee", "Local Grounds",
   "The Daily Grind", "Sunrise Caf\u00e9", "Coffee House", "Bean Scene",
   "Espresso Bar", "Caf\u00e9 Central"]

/-- Value of `Math.PI`, the exact rational value of the IEEE double. -/
def jsPI : ℚ := 884279719003555 / 281474976710656

/-- One iteration of the `generateMockCafes` loop (route.ts lines
224-252).  `rand` is the stream of `Math.random()` draws (nine per
iteration, in source evaluation order); `jsSin`/`jsCos` are the
double-precision trigonometric primitives. -/
def mkMockCafe (rand : ℕ → ℚ) (jsSin jsCos : ℚ → ℚ) (lat lng : ℚ) (i : ℕ) : Cafe :=
  let distanceKm := rand (9 * i) * 5
  let distanceMeters := distanceKm * 1000
  let angle := rand (9 * i + 1) * 360
  let angleRad := angle * (jsPI / 180)
  let latOffset := distanceKm / 111 * jsCos angleRad
  let lngOffset := distanceKm / (111 * jsCos (lat * jsPI / 180)) * jsSin angleRad
  { id := i + 1
    googlePlaceId := "mock_" ++ natStr (i + 1)
    name := CAFE_NAMES.getD (i % 10) "" ++ " (Mock)"
    address := natStr (⌊rand (9 * i + 2) * 9999⌋).toNat ++ " Main St (Mock Address)"
    latitude := lat + latOffset
    longitude := lng + lngOffset
    rating := ((⌊(rand (9 * i + 3) * 1.5 + 3.5) * 10 + 1 / 2⌋ : ℤ) : ℚ) / 10
    priceLevel := (⌊rand (9 * i + 4) * 3⌋).toNat + 1
    distance := formatDistance distanceMeters
    crowdLevel := (⌊rand (9 * i + 5) * 5⌋).toNat + 1
    predictedWait := natStr ((⌊rand (9 * i + 6) * 10⌋).toNat + 2) ++ "-"
      ++ natStr ((⌊rand (9 * i + 7) * 10⌋).toNat + 8) ++ " min"
    tags := ["WiFi", "Coffee", "Seating"]
    aiScore := (⌊rand (9 * i + 8) * 20⌋).toNat + 80
    cached := false
    openNow := true
    actualDistance := some distanceMeters }

/-- The comparator `(a, b) => (a.actualDistance || 0) - (b.actualDistance || 0)`. -/
def byDistance (a b : Cafe) : Prop :=
  a.actualDistance.getD 0 ≤ b.actualDistance.getD 0

instance : DecidableRel byDistance := fun a b =>
  inferInstanceAs (Decidable (a.actualDistance.getD 0 ≤ b.actualDistance.getD 0))

/-- The `({ actualDistance, ...cafe }) => cafe` projection. -/
def dropActualDistance (c : Cafe) : Cafe := { c with actualDistance := none }

/-- The mock café batch before the final projection: ten generated
records sorted ascending by `actualDistance` (JS `Array.prototype.sort`
is stable; `insertionSort` models it). -/
def generateMockCafesFull (rand : ℕ → ℚ) (jsSin jsCos : ℚ → ℚ) (lat lng : ℚ) : List Cafe :=
  List.insertionSort byDistance ((List.range 10).map (mkMockCafe rand jsSin jsCos lat lng))

/-- Model of `generateMockCafes` (route.ts lines 219-256): sort the batch by
distance, then strip the transient `actualDistance` field. -/
def generateMockCafes (rand : ℕ → ℚ) (jsSin jsCos : ℚ → ℚ) (lat lng : ℚ) : List Cafe :=
  (generateMockCafesFull rand jsSin jsCos lat lng).map dropActualDistance

/-- The credential check of route.ts line 77: the key is absent, empty,
or equal to the placeholder value YOUR_API_KEY_HERE. -/
def missingApiKey : Option String → Bool
  | none => true
  | some s => decide (s = "") || decide (s = "YOUR_API_KEY_HERE")

/-- Model of `fetchRealCafesFromGoogle` (route.ts lines 74-211).  With no usable
credential it returns the mock batch with no continuation token; the
network path (everything inside the `try`) is a single suspension point
whose outcome is passed in as `net`. -/
def fetchRealCafesFromGoogle (apiKey : Option String) (net : FetchResult)
    (rand : ℕ → ℚ) (jsSin jsCos : ℚ → ℚ)
    (lat lng : ℚ) (_radius : ℤ) : FetchResult :=
  if missingApiKey apiKey then
    { cafes := generateMockCafes rand jsSin jsCos lat lng, nextPageToken := none }
  else net

/-! ### JS numeric parsing (as used by the GET handler) -/

/-- Splits an optional leading sign off a character list. -/
def signSplit : List Char → Bool × List Char
  | '-' :: r => (true, r)
  | '+' :: r => (false, r)
  | l => (false, l)

/-- Does the list start with the literal `Infinity`? -/
def infinityPrefixed : List Char → Bool
  | 'I' :: 'n' :: 'f' :: 'i' :: 'n' :: 'i' :: 't' :: 'y' :: _ => true
  | _ => false

/-- The exponent part of a decimal literal (after the `e`); an
incomplete exponent is not part of the longest valid prefix and
contributes 0. -/
def expVal (l : List Char) : ℤ :=
  let p := signSplit l
  let ds := p.2.takeWhile (fun c => c.isDigit)
  if ds = [] then 0 else if p.1 then -(valOf ds : ℤ) else (valOf ds : ℤ)

/-- JS `parseFloat`: skip leading whitespace, then take the longest
prefix matching a signed decimal literal (or `Infinity`); NaN when no
digits are found. -/
def jsParseFloat (s : String) : JSNum :=
  let t := s.data.dropWhile (fun c => c.isWhitespace)
  let p := signSplit t
  if infinityPrefixed p.2 then JSNum.inf p.1
  else
    let ip := p.2.takeWhile (fun c => c.isDigit)
    let r₁ := p.2.dropWhile (fun c => c.isDigit)
    let fpr : List Char × List Char :=
      match r₁ with
      | '.' :: rest => (rest.takeWhile (fun c => c.isDigit), rest.dropWhile (fun c => c.isDigit))
      | _ => ([], r₁)
    if ip = [] ∧ fpr.1 = [] then JSNum.nan
    else
      let mant : ℚ := (valOf ip : ℚ) + (valOf fpr.1 : ℚ) / (10 : ℚ) ^ fpr.1.length
      let exp : ℤ :=
        match fpr.2 with
        | 'e' :: rest => expVal rest
        | 'E' :: rest => expVal rest
        | _ => 0
      JSNum.num ((if p.1 then -mant else mant) * (10 : ℚ) ^ exp)

def isHexDigitChar (c : Char) : Bool :=
  c.isDigit || (decide ('a' ≤ c) && decide (c ≤ 'f')) || (decide ('A' ≤ c) && decide (c ≤ 'F'))

def hexCharVal (c : Char) : ℕ :=
  if c.isDigit then charVal c
  else if decide ('a' ≤ c) && decide (c ≤ 'f') then c.toNat - 87
  else c.toNat - 55

def hexVal (l : List Char) : ℕ := l.foldl (fun a c => 16 * a + hexCharVal c) 0

/-- JS `parseInt` with no radix argument: skip whitespace, optional
sign, `0x`-prefixed hexadecimal or decimal digits; NaN (`none`) when no
digits follow. -/
def jsParseInt (s : String) : Option ℤ :=
  let t := s.data.dropWhile (fun c => c.isWhitespace)
  let p := signSplit t
  match p.2 with
  | '0' :: 'x' :: rest =>
      let ds := rest.takeWhile isHexDigitChar
      if ds = [] then none
      else some (if p.1 then -(hexVal ds : ℤ) else (hexVal ds : ℤ))
  | '0' :: 'X' :: rest =>
      let ds := rest.takeWhile isHexDigitChar
      if ds = [] then none
      else some (if p.1 then -(hexVal ds : ℤ) else (hexVal ds : ℤ))
  | l =>
      let ds := l.takeWhile (fun c => c.isDigit)
      if ds = [] then none
      else some (if p.1 then -(valOf ds : ℤ) else (valOf ds : ℤ))

/-! ### route.ts: the GET handler -/

/-- The raw query parameters of a request (`searchParams.get` returns
`null`, modelled `none`, for an absent parameter). -/
structure Request where
  lat : Option String
  lng : Option String
  radius : Option String
  query : Option String
  pageToken : Option String
deriving DecidableEq

/-- JS `searchParams.get(x) || d`: the default replaces both `null` and
the (falsy) empty string. -/
def orElse (v : Option String) (d : String) : String :=
  match v with
  | none => d
  | some s => if s = "" then d else s

/-- The `meta` diagnostics of a success envelope.  The wall-clock
fields (`responseTime`, `timestamp`) are real-time values outside this
model. -/
structure ResponseMeta where
  count : ℕ
  cacheHit : Bool
  cacheSource : String
  hasMore : Bool
deriving DecidableEq

/-- The HTTP response produced by the handler. -/
structure ApiResponse where
  status : ℕ
  success : Bool
  error : Option String
  data : List Cafe
  nextPageToken : Option String
  meta : Option ResponseMeta
deriving DecidableEq

/-- The observable outcome of one GET request: the response, the cache
state afterwards, and whether the provider adapter was invoked. -/
structure GetOutcome where
  resp : ApiResponse
  cache : Cache
  providerCalled : Bool
deriving DecidableEq

/-- The provider-fetch-and-respond path of the handler (route.ts lines
295-322): store the result only for non-paginated, non-empty results. -/
def servedFromProvider (pageToken : Option String) (cacheKey : String) (c : Cache)
    (fetchResult : FetchResult) (now : ℤ) : GetOutcome :=
  let c₂ :=
    if pageToken = none ∧ 0 < fetchResult.cafes.length
    then MemoryCache.set c cacheKey fetchResult now else c
  { resp := { status := 200, success := true, error := none,
              data := fetchResult.cafes, nextPageToken := fetchResult.nextPageToken,
              meta := some { count := fetchResult.cafes.length, cacheHit := false,
                             cacheSource := "none", hasMore := fetchResult.nextPageToken.isSome } }
    cache := c₂
    providerCalled := true }

/-- Model of `GET` (route.ts lines 258-336).  The single `await` of
`fetchRealCafesFromGoogle` is the only suspension point; its outcome is
passed in as `fetchResult`.  `now` is `Date.now()` during the request.
All modelled operations are total, so the catch-all 500 branch is
unreachable here. -/
def GET (req : Request) (cache : Cache) (fetchResult : FetchResult) (now : ℤ) : GetOutcome :=
  let latitude := jsParseFloat (orElse req.lat "0")
  let longitude := jsParseFloat (orElse req.lng "0")
  let pageToken : Option String :=
    match req.pageToken with
    | none => none
    | some s => if s = "" then none else some s
  if ¬(jsTruthy latitude = true ∧ jsTruthy longitude = true) then
    { resp := { status := 400, success := false,
                error := some "Latitude and longitude are required",
                data := [], nextPageToken := none, meta := none }
      cache := cache
      providerCalled := false }
  else
    let params : SearchParams :=
      { latitude := latitude, longitude := longitude,
        radius := jsParseInt (orElse req.radius "25000"), query := orElse req.query "" }
    let cacheKey := getCacheKey params ++ (match pageToken with | some t => "-" ++ t | none => "")
    match pageToken with
    | some t =>
        servedFromProvider (some t) cacheKey cache fetchResult now
    | none =>
        let read := MemoryCache.get cache cacheKey now
        match read.1 with
        | some r =>
            if 0 < r.cafes.length then
              { resp := { status := 200, success := true, error := none,
                          data := r.cafes, nextPageToken := r.nextPageToken,
                          meta := some { count := r.cafes.length, cacheHit := true,
                                         cacheSource := "memory", hasMore := r.nextPageToken.isSome } }
                cache := read.2
                providerCalled := false }
            else servedFromProvider none cacheKey read.2 fetchResult now
        | none => servedFromProvider none cacheKey read.2 fetchResult now

/-! ### Association-list (JS Map) lemmas -/

@[simp] theorem cacheKeys_nil : cacheKeys [] = [] := rfl

@[simp] theorem cacheKeys_cons (e : CacheEntry) (m : Cache) :
    cacheKeys (e :: m) = e.key :: cacheKeys m := rfl

theorem mem_cacheKeys_mapSet (m : Cache) (e : CacheEntry) (k' : String) :
    k' ∈ cacheKeys (mapSet m e) ↔ k' = e.key ∨ k' ∈ cacheKeys m := by
  induction m with
  | nil => simp [mapSet]
  | cons x m ih =>
    by_cases hx : x.key = e.key
    · simp only [mapSet, if_pos hx, cacheKeys_cons, List.mem_cons]
      rw [hx]
      tauto
    · simp only [mapSet, if_neg hx, cacheKeys_cons, List.mem_cons, ih]
      tauto

theorem mem_cacheKeys_mapDelete (m : Cache) (k k' : String) (h : (cacheKeys m).Nodup) :
    k' ∈ cacheKeys (mapDelete m k) ↔ k' ∈ cacheKeys m ∧ k' ≠ k := by
  induction m with
  | nil => simp [mapDelete]
  | cons x m ih =>
    simp only [cacheKeys_cons, List.nodup_cons] at h
    by_cases hx : x.key = k
    · simp only [mapDelete, if_pos hx, cacheKeys_cons, List.mem_cons]
      constructor
      · intro hm
        refine ⟨Or.inr hm, fun hk => h.1 ?_⟩
        rw [hx, ← hk]
        exact hm
      · rintro ⟨h1 | h1, h2⟩
        · exact absurd (h1.trans hx) h2
        · exact h1
    · simp only [mapDelete, if_neg hx, cacheKeys_cons, List.mem_cons, ih h.2]
      have : k' = x.key → k' ≠ k := fun h1 => h1 ▸ hx
      tauto

theorem length_mapSet_le (m : Cache) (e : CacheEntry) :
    (mapSet m e).length ≤ m.length + 1 := by
  induction m with
  | nil => simp [mapSet]
  | cons x m ih =>
    by_cases hx : x.key = e.key
    · simp [mapSet, hx]
    · simp only [mapSet, if_neg hx, List.length_cons]
      omega

theorem length_mapSet_of_not_mem (m : Cache) (e : CacheEntry)
    (h : e.key ∉ cacheKeys m) : (mapSet m e).length = m.length + 1 := by
  induction m with
  | nil => simp [mapSet]
  | cons x m ih =>
    simp only [cacheKeys_cons, List.mem_cons] at h
    push_neg at h
    have hx : x.key ≠ e.key := fun hk => h.1 hk.symm
    simp only [mapSet, if_neg hx, List.length_cons]
    rw [ih h.2]

theorem mapDelete_head (e : CacheEntry) (t : Cache) : mapDelete (e :: t) e.key = t := by
  simp [mapDelete]

/-! ### Claim theorems: the bounded TTL cache -/

/-- Claim C4 (confirmed): for every cache state, key and current time,
`get` returns the stored payload iff an entry for the key exists and its
age `now - timestamp` is at most the five-minute TTL; an over-age entry
is removed and reported absent, and a missing key leaves the store
untouched. -/
theorem memoryCache_get_ttl_spec (m : Cache) (k : String) (now : ℤ) :
    (∀ e, mapFind? m k = some e →
        (now - e.timestamp ≤ MEMORY_CACHE_TTL →
          MemoryCache.get m k now = (some e.data, m))
      ∧ (MEMORY_CACHE_TTL < now - e.timestamp →
          MemoryCache.get m k now = (none, mapDelete m k)))
  ∧ (mapFind? m k = none → MemoryCache.get m k now = (none, m)) := by
  constructor
  · intro e he
    constructor
    · intro hage
      simp [MemoryCache.get, he, not_lt.mpr hage]
    · intro hage
      simp [MemoryCache.get, he, hage]
  · intro he
    simp [MemoryCache.get, he]

/-- The empty payload used by concrete witnesses. -/
def frEmpty : FetchResult := ⟨[], none⟩

/-- A one-entry store used by concrete witnesses. -/
def entK : CacheEntry := ⟨"k", frEmpty, 0⟩

/-- Witness for C4 at a concrete store: a fresh entry is returned as
long as it is within the TTL. -/
theorem memoryCache_get_ttl_spec_witness :
    mapFind? [entK] "k" = some entK
  ∧ (1 : ℤ) - entK.timestamp ≤ MEMORY_CACHE_TTL
  ∧ MemoryCache.get [entK] "k" 1 = (some frEmpty, [entK]) := by
  refine ⟨by decide, by decide, ?_⟩
  exact ((memoryCache_get_ttl_spec [entK] "k" 1).1 entK (by decide)).1 (by decide)

/-- Claim C1 (amended): `set` attempts an eviction whenever the store
already holds `MAX_MEMORY_CACHE_SIZE` entries, even when the key being
written is already present; the evicted entry is the least recently
inserted one — unless its key is the empty string (falsy in JS), in
which case nothing is evicted.  Overwriting an already-present key in a
full store therefore does evict the oldest entry. -/
theorem memoryCache_set_eviction (m : Cache) (k : String) (d : FetchResult) (now : ℤ)
    (hnd : (cacheKeys m).Nodup) :
    (m.length < MAX_MEMORY_CACHE_SIZE →
      ∀ k', k' ∈ cacheKeys (MemoryCache.set m k d now) ↔ k' = k ∨ k' ∈ cacheKeys m)
  ∧ (∀ e, m.head? = some e → e.key ≠ "" → MAX_MEMORY_CACHE_SIZE ≤ m.length →
      ∀ k', k' ∈ cacheKeys (MemoryCache.set m k d now) ↔
        k' = k ∨ (k' ∈ cacheKeys m ∧ k' ≠ e.key))
  ∧ (∀ e, m.head? = some e → e.key = "" → MAX_MEMORY_CACHE_SIZE ≤ m.length →
      ∀ k', k' ∈ cacheKeys (MemoryCache.set m k d now) ↔ k' = k ∨ k' ∈ cacheKeys m) := by
  refine ⟨?_, ?_, ?_⟩
  · intro hlt k'
    simp only [MemoryCache.set, if_neg (not_le.mpr hlt)]
    exact mem_cacheKeys_mapSet m ⟨k, d, now⟩ k'
  · intro e he hk hge k'
    match m, he with
    | e :: t, rfl =>
      simp only [MemoryCache.set, if_pos hge, List.head?_cons, if_neg hk, mapDelete_head]
      rw [mem_cacheKeys_mapSet]
      simp only [cacheKeys_cons, List.mem_cons]
      simp only [cacheKeys_cons, List.nodup_cons] at hnd
      constructor
      · rintro (h1 | h1)
        · exact Or.inl h1
        · exact Or.inr ⟨Or.inr h1, fun hk' => hnd.1 (hk' ▸ h1)⟩
      · rintro (h1 | ⟨h1 | h1, h2⟩)
        · exact Or.inl h1
        · exact absurd h1 h2
        · exact Or.inr h1
  · intro e he hk hge k'
    match m, he with
    | e :: t, rfl =>
      simp only [MemoryCache.set, if_pos hge, List.head?_cons, if_pos hk]
      exact mem_cacheKeys_mapSet (e :: t) ⟨k, d, now⟩ k'

/-- Witness for C1 (amended) on a two-entry store below capacity:
`set` only adds the written key. -/
theorem memoryCache_set_eviction_witness :
    (cacheKeys [⟨"a", ⟨[], none⟩, 0⟩]).Nodup
  ∧ ([⟨"a", ⟨[], none⟩, 0⟩] : Cache).length < MAX_MEMORY_CACHE_SIZE
  ∧ ∀ k', k' ∈ cacheKeys (MemoryCache.set [⟨"a", ⟨[], none⟩, 0⟩] "b" ⟨[], none⟩ 1) ↔
      k' = "b" ∨ k' ∈ cacheKeys [⟨"a", ⟨[], none⟩, 0⟩] :=
  ⟨by decide, by decide,
    (memoryCache_set_eviction [⟨"a", ⟨[], none⟩, 0⟩] "b" ⟨[], none⟩ 1 (by decide)).1 (by decide)⟩

/-- A 100-entry store with distinct three-character keys `000` … `099`. -/
def fullCache : Cache := (List.range 100).map (fun i => ⟨String.mk (pad3 i), ⟨[], none⟩, 0⟩)

/-- Counterexample to C1 as stated: writing the already-present key
`050` into the full 100-entry store still evicts the oldest entry
(key `000`), leaving only 99 entries — the claim says overwriting an
already-present key never evicts. -/
theorem memoryCache_set_eviction_cx :
    String.mk (pad3 50) ∈ cacheKeys fullCache
  ∧ String.mk (pad3 0) ∈ cacheKeys fullCache
  ∧ fullCache.length = MAX_MEMORY_CACHE_SIZE
  ∧ String.mk (pad3 0) ∉ cacheKeys (MemoryCache.set fullCache (String.mk (pad3 50)) ⟨[], none⟩ 1)
  ∧ (MemoryCache.set fullCache (String.mk (pad3 50)) ⟨[], none⟩ 1).length = 99 := by
  decide

/-- Claim C5 (amended): `size` stays at most 100 across `set` as long
as every held key is non-empty; and inserting a 101st distinct key into
a full store of non-empty keys evicts exactly one entry, leaving
`size = 100`.  (With an empty-string key at the head the eviction is
skipped and the bound fails — see the counterexample.) -/
theorem memoryCache_size_bound (m : Cache) (k : String) (d : FetchResult) (now : ℤ)
    (hcap : MemoryCache.size m ≤ MAX_MEMORY_CACHE_SIZE)
    (hne : ∀ e ∈ m, e.key ≠ "") :
    MemoryCache.size (MemoryCache.set m k d now) ≤ MAX_MEMORY_CACHE_SIZE
  ∧ (MemoryCache.size m = MAX_MEMORY_CACHE_SIZE → (cacheKeys m).Nodup →
      k ∉ cacheKeys m →
      MemoryCache.size (MemoryCache.set m k d now) = MAX_MEMORY_CACHE_SIZE) := by
  constructor
  · by_cases hge : MAX_MEMORY_CACHE_SIZE ≤ m.length
    · match m, hge with
      | e :: t, hge =>
        have hek : e.key ≠ "" := hne e (List.mem_cons_self e t)
        simp only [MemoryCache.size, MemoryCache.set, if_pos hge, List.head?_cons,
          if_neg hek, mapDelete_head]
        have h1 := length_mapSet_le t ⟨k, d, now⟩
        simp only [MemoryCache.size, List.length_cons] at hcap
        omega
    · simp only [MemoryCache.size, MemoryCache.set, if_neg hge]
      have h1 := length_mapSet_le m ⟨k, d, now⟩
      omega
  · intro hfull hnd hk
    have hge : MAX_MEMORY_CACHE_SIZE ≤ m.length := le_of_eq hfull.symm
    match m, hge with
    | e :: t, hge =>
      have hek : e.key ≠ "" := hne e (List.mem_cons_self e t)
      simp only [MemoryCache.size, MemoryCache.set, if_pos hge, List.head?_cons,
        if_neg hek, mapDelete_head]
      have hkt : k ∉ cacheKeys t := by
        intro hmem
        exact hk (by simp [hmem])
      rw [length_mapSet_of_not_mem t ⟨k, d, now⟩ hkt]
      simp only [MemoryCache.size, List.length_cons] at hfull
      omega

/-- Witness for C5 (amended): inserting the fresh key `100` into the
full store of keys `000` … `099` leaves the size at exactly 100. -/
theorem memoryCache_size_bound_witness :
    MemoryCache.size fullCache ≤ MAX_MEMORY_CACHE_SIZE
  ∧ (∀ e ∈ fullCache, e.key ≠ "")
  ∧ MemoryCache.size (MemoryCache.set fullCache (String.mk (pad3 100)) ⟨[], none⟩ 1)
      = MAX_MEMORY_CACHE_SIZE :=
  ⟨by decide, by decide,
    (memoryCache_size_bound fullCache (String.mk (pad3 100)) ⟨[], none⟩ 1
      (by decide) (by decide)).2 (by decide) (by decide) (by decide)⟩

/-- The sequence of writes that overflows the store: the key `""`
first, then 100 distinct keys. -/
def overflowWrites : List String := "" :: (List.range 100).map (fun i => String.mk (pad3 i))

/-- The store reached from empty by performing those writes. -/
def overflowState : Cache :=
  overflowWrites.foldl (fun m k => MemoryCache.set m k ⟨[], none⟩ 0) []

/-- Counterexample to C5 as stated: a reachable store (built from the
empty store by `set` calls only) whose size is 101 — the falsy check on
the oldest key skips the eviction once the empty-string key reaches the
head of the map. -/
theorem memoryCache_size_bound_cx : MemoryCache.size overflowState = 101 := by
  decide

/-! ### Claim theorems: distance formatting -/

/-- Claim C9 (confirmed): for non-negative meter counts,
`formatDistance` prints rounded whole meters with suffix " m" below
1000, and miles (`meters / 1609.34`, one decimal) with suffix " mi"
from 1000 up; in particular `formatDistance 999 = "999 m"` and
`formatDistance 1000 = "0.6 mi"`. -/
theorem formatDistance_spec :
    formatDistance 999 = "999 m"
  ∧ formatDistance 1000 = "0.6 mi"
  ∧ ∀ m : ℚ, 0 ≤ m →
      (m < 1000 → formatDistance m = intStr (jsRound m) ++ " m")
    ∧ (1000 ≤ m → formatDistance m = toFixed1 (m / 1609.34) ++ " mi") := by
  refine ⟨?_, ?_, ?_⟩
  · have h1 : jsRound 999 = 999 := by norm_num [jsRound]
    rw [formatDistance, if_pos (by norm_num), h1]
    decide
  · have hneg : ¬((1000 : ℚ) / 1609.34 < 0) := by norm_num
    have h1 : (⌊((1000 : ℚ) / 1609.34) * 10 + 1 / 2⌋) = 6 := by norm_num
    rw [formatDistance, if_neg (by norm_num), toFixed1]
    simp only [if_neg hneg, h1]
    decide
  · intro m _
    constructor
    · intro h
      rw [formatDistance, if_pos h]
    · intro h
      rw [formatDistance, if_neg (not_lt.mpr h)]

/-- Witness for C9 at 2000 meters: the miles branch applies. -/
theorem formatDistance_spec_witness :
    (0 : ℚ) ≤ 2000
  ∧ ((1000 : ℚ) ≤ 2000 → formatDistance 2000 = toFixed1 (2000 / 1609.34) ++ " mi") :=
  ⟨by norm_num, fun _ => (formatDistance_spec.2.2 2000 (by norm_num)).2 (by norm_num)⟩

/-! ### Claim theorems: the synthetic mock batch -/

instance : IsTotal Cafe byDistance := ⟨fun _ _ => le_total _ _⟩

instance : IsTrans Cafe byDistance := ⟨fun _ _ _ => le_trans⟩

theorem mem_generateMockCafesFull (rand : ℕ → ℚ) (jsSin jsCos : ℚ → ℚ) (lat lng : ℚ)
    (c : Cafe) :
    c ∈ generateMockCafesFull rand jsSin jsCos lat lng ↔
      ∃ i < 10, c = mkMockCafe rand jsSin jsCos lat lng i := by
  unfold generateMockCafesFull
  rw [List.mem_insertionSort, List.mem_map]
  constructor
  · rintro ⟨i, hi, rfl⟩
    exact ⟨i, by simpa using hi, rfl⟩
  · rintro ⟨i, hi, rfl⟩
    exact ⟨i, by simpa using hi, rfl⟩

/-- Claim C10 (confirmed): every synthetic fallback café has
`openNow = true`, `cached = false`, and a crowd level in 1..5, for
every origin and every outcome of the randomness source. -/
theorem mock_flags (rand : ℕ → ℚ) (jsSin jsCos : ℚ → ℚ) (lat lng : ℚ)
    (hr : ∀ n, 0 ≤ rand n ∧ rand n < 1) :
    ∀ c ∈ generateMockCafes rand jsSin jsCos lat lng,
      c.openNow = true ∧ c.cached = false ∧ 1 ≤ c.crowdLevel ∧ c.crowdLevel ≤ 5 := by
  intro c hc
  unfold generateMockCafes at hc
  rw [List.mem_map] at hc
  obtain ⟨c', hc', rfl⟩ := hc
  rw [mem_generateMockCafesFull] at hc'
  obtain ⟨i, _, rfl⟩ := hc'
  have h := hr (9 * i + 5)
  have h0 : (0 : ℤ) ≤ ⌊rand (9 * i + 5) * 5⌋ :=
    Int.floor_nonneg.mpr (mul_nonneg h.1 (by norm_num))
  have h5 : ⌊rand (9 * i + 5) * 5⌋ < 5 := Int.floor_lt.mpr (by push_cast; nlinarith [h.2])
  simp only [dropActualDistance, mkMockCafe]
  refine ⟨trivial, trivial, ?_, ?_⟩ <;> omega

/-- Witness for C10 with the constant-half randomness source. -/
theorem mock_flags_witness :
    (∀ n, 0 ≤ (fun _ : ℕ => (1 : ℚ) / 2) n ∧ (fun _ : ℕ => (1 : ℚ) / 2) n < 1)
  ∧ ∀ c ∈ generateMockCafes (fun _ => 1 / 2) (fun _ => 0) (fun _ => 0) 0 0,
      c.openNow = true ∧ c.cached = false ∧ 1 ≤ c.crowdLevel ∧ c.crowdLevel ≤ 5 :=
  ⟨fun _ => by norm_num,
    mock_flags (fun _ => 1 / 2) (fun _ => 0) (fun _ => 0) 0 0 (fun _ => by norm_num)⟩

/-- Claim C2 (amended): every synthetic fallback point lies at a
computed distance of less than 5000 meters from the origin — a fixed
5 km scatter, regardless of the requested radius (which the generator
never receives). -/
theorem mock_distance_bound (rand : ℕ → ℚ) (jsSin jsCos : ℚ → ℚ) (lat lng : ℚ)
    (hr : ∀ n, 0 ≤ rand n ∧ rand n < 1) :
    ∀ c ∈ generateMockCafesFull rand jsSin jsCos lat lng,
      ∃ d, c.actualDistance = some d ∧ 0 ≤ d ∧ d < 5000 := by
  intro c hc
  rw [mem_generateMockCafesFull] at hc
  obtain ⟨i, _, rfl⟩ := hc
  have h := hr (9 * i)
  refine ⟨rand (9 * i) * 5 * 1000, by simp [mkMockCafe], ?_, ?_⟩
  · nlinarith [h.1]
  · nlinarith [h.2]

/-- Witness for C2 (amended) with the constant-half randomness source. -/
theorem mock_distance_bound_witness :
    (∀ n, 0 ≤ (fun _ : ℕ => (1 : ℚ) / 2) n ∧ (fun _ : ℕ => (1 : ℚ) / 2) n < 1)
  ∧ ∀ c ∈ generateMockCafesFull (fun _ => 1 / 2) (fun _ => 0) (fun _ => 0) 0 0,
      ∃ d, c.actualDistance = some d ∧ 0 ≤ d ∧ d < 5000 :=
  ⟨fun _ => by norm_num,
    mock_distance_bound (fun _ => 1 / 2) (fun _ => 0) (fun _ => 0) 0 0 (fun _ => by norm_num)⟩

/-- A randomness outcome whose first draw is 0.9. -/
def randCx : ℕ → ℚ := fun n => if n = 0 then 9 / 10 else 0

/-- Counterexample to C2 as stated: with requested radius 1000 m and a
first draw of 0.9, the no-credential batch contains a point whose
computed distance is 4500 m > 1000 m — the generator scatters over a
fixed 5 km regardless of the requested radius. -/
theorem mock_distance_bound_cx :
    (∀ n, 0 ≤ randCx n ∧ randCx n < 1)
  ∧ (fetchRealCafesFromGoogle none frEmpty randCx (fun _ => 0) (fun _ => 0) 0 0 1000).cafes
      = (generateMockCafesFull randCx (fun _ => 0) (fun _ => 0) 0 0).map dropActualDistance
  ∧ ∃ c ∈ generateMockCafesFull randCx (fun _ => 0) (fun _ => 0) 0 0,
      c.actualDistance = some 4500 ∧ ¬((4500 : ℚ) ≤ 1000) := by
  refine ⟨?_, rfl, ?_⟩
  · intro n
    unfold randCx
    split <;> norm_num
  · refine ⟨mkMockCafe randCx (fun _ => 0) (fun _ => 0) 0 0 0, ?_, ?_, by norm_num⟩
    · rw [mem_generateMockCafesFull]
      exact ⟨0, by norm_num, rfl⟩
    · simp only [mkMockCafe, randCx]
      norm_num

/-- Claim C7 (confirmed): with no usable provider credential,
`fetchRealCafesFromGoogle` returns exactly ten synthetic points, each
carrying the mock markers (a `mock_`-prefixed provider id and a
"(Mock)"-suffixed name), sorted ascending by their computed distance,
with no continuation token. -/
theorem fetch_noCredential (apiKey : Option String) (net : FetchResult)
    (rand : ℕ → ℚ) (jsSin jsCos : ℚ → ℚ) (lat lng : ℚ) (radius : ℤ)
    (h : missingApiKey apiKey = true) :
    (fetchRealCafesFromGoogle apiKey net rand jsSin jsCos lat lng radius).cafes.length = 10
  ∧ (fetchRealCafesFromGoogle apiKey net rand jsSin jsCos lat lng radius).nextPageToken = none
  ∧ (∀ c ∈ (fetchRealCafesFromGoogle apiKey net rand jsSin jsCos lat lng radius).cafes,
      (∃ j, c.googlePlaceId = "mock_" ++ natStr j)
    ∧ (∃ p, c.name = p ++ " (Mock)")
    ∧ c.actualDistance = none)
  ∧ List.Sorted byDistance (generateMockCafesFull rand jsSin jsCos lat lng)
  ∧ (fetchRealCafesFromGoogle apiKey net rand jsSin jsCos lat lng radius).cafes
      = (generateMockCafesFull rand jsSin jsCos lat lng).map dropActualDistance := by
  have hf : fetchRealCafesFromGoogle apiKey net rand jsSin jsCos lat lng radius
      = ⟨generateMockCafes rand jsSin jsCos lat lng, none⟩ := by
    rw [fetchRealCafesFromGoogle, if_pos h]
  rw [hf]
  refine ⟨?_, rfl, ?_, ?_, rfl⟩
  · show (generateMockCafes rand jsSin jsCos lat lng).length = 10
    rw [generateMockCafes, List.length_map, generateMockCafesFull,
      List.length_insertionSort, List.length_map, List.length_range]
  · intro c hc
    simp only [generateMockCafes, List.mem_map] at hc
    obtain ⟨c', hc', rfl⟩ := hc
    rw [mem_generateMockCafesFull] at hc'
    obtain ⟨i, _, rfl⟩ := hc'
    exact ⟨⟨i + 1, rfl⟩, ⟨CAFE_NAMES.getD (i % 10) "", rfl⟩, rfl⟩
  · exact List.sorted_insertionSort byDistance _

/-- Witness for C7 with an absent credential and the constant-zero
randomness source. -/
theorem fetch_noCredential_witness :
    missingApiKey none = true
  ∧ (fetchRealCafesFromGoogle none frEmpty (fun _ => 0) (fun _ => 0) (fun _ => 0) 0 0 5000).cafes.length = 10
  ∧ (fetchRealCafesFromGoogle none frEmpty (fun _ => 0) (fun _ => 0) (fun _ => 0) 0 0 5000).nextPageToken = none :=
  ⟨rfl,
    (fetch_noCredential none frEmpty (fun _ => 0) (fun _ => 0) (fun _ => 0) 0 0 5000 rfl).1,
    (fetch_noCredential none frEmpty (fun _ => 0) (fun _ => 0) (fun _ => 0) 0 0 5000 rfl).2.1⟩

/-! ### Claim theorems: the GET handler -/

theorem jsParseFloat_zero : jsParseFloat "0" = JSNum.num 0 := by
  simp [jsParseFloat, signSplit, infinityPrefixed, valOf, charVal]

theorem jsParseFloat_one : jsParseFloat "1" = JSNum.num 1 := by
  simp [jsParseFloat, signSplit, infinityPrefixed, valOf, charVal]

/-- A `lat` or `lng` query parameter that fails the validation of the
handler:
absent, empty, not a number, or numerically zero. -/
def invalidCoord : Option String → Prop
  | none => True
  | some s => s = "" ∨ jsParseFloat s = JSNum.nan ∨ jsParseFloat s = JSNum.num 0

theorem jsTruthy_of_invalidCoord (v : Option String) (h : invalidCoord v) :
    jsTruthy (jsParseFloat (orElse v "0")) = false := by
  match v with
  | none =>
    rw [show orElse none "0" = "0" from rfl, jsParseFloat_zero]
    simp [jsTruthy]
  | some s =>
    rcases h with h | h | h
    · simp [orElse, h, jsParseFloat_zero, jsTruthy]
    · by_cases hs : s = ""
      · simp [orElse, hs, jsParseFloat_zero, jsTruthy]
      · simp [orElse, hs, h, jsTruthy]
    · by_cases hs : s = ""
      · simp [orElse, hs, jsParseFloat_zero, jsTruthy]
      · simp [orElse, hs, h, jsTruthy]

/-- Claim C8 (confirmed): when `lat` or `lng` is absent, empty,
non-numeric (parses to NaN) or zero, the handler answers HTTP 400 with
`success:false` and the fixed error message, makes no provider call,
and leaves the cache unchanged. -/
theorem GET_validation (req : Request) (cache : Cache) (fetch : FetchResult) (now : ℤ)
    (h : invalidCoord req.lat ∨ invalidCoord req.lng) :
    (GET req cache fetch now).resp.status = 400
  ∧ (GET req cache fetch now).resp.success = false
  ∧ (GET req cache fetch now).resp.error = some "Latitude and longitude are required"
  ∧ (GET req cache fetch now).cache = cache
  ∧ (GET req cache fetch now).providerCalled = false := by
  have hcond : ¬(jsTruthy (jsParseFloat (orElse req.lat "0")) = true
      ∧ jsTruthy (jsParseFloat (orElse req.lng "0")) = true) := by
    rcases h with h | h
    · intro hc
      rw [jsTruthy_of_invalidCoord _ h] at hc
      exact Bool.false_ne_true hc.1
    · intro hc
      rw [jsTruthy_of_invalidCoord _ h] at hc
      exact Bool.false_ne_true hc.2
  simp only [GET]
  rw [if_pos hcond]
  exact ⟨rfl, rfl, rfl, rfl, rfl⟩

/-- A request whose `lat` parameter is not numeric. -/
def reqBad : Request := ⟨some "abc", some "1", none, none, none⟩

/-- Witness for C8: the request with `lat=abc` gets the 400 response
and does not touch cache or provider. -/
theorem GET_validation_witness :
    invalidCoord reqBad.lat
  ∧ (GET reqBad [] frEmpty 0).resp.status = 400
  ∧ (GET reqBad [] frEmpty 0).cache = []
  ∧ (GET reqBad [] frEmpty 0).providerCalled = false := by
  have hinv : invalidCoord reqBad.lat := Or.inr (Or.inl (by decide))
  have h := GET_validation reqBad [] frEmpty 0 (Or.inl hinv)
  exact ⟨hinv, h.1, h.2.2.2.1, h.2.2.2.2⟩

/-- Claim C6 (amended): a request carrying a non-empty `pageToken`
never reads or writes the cache — the cache state is unchanged, the
diagnostic `cacheHit` flag is false, and any successful response is
served from the provider outcome, not from the cache.  (An
empty-string `pageToken` is coerced to "absent" by `|| undefined` and
does use the cache — see the counterexample.) -/
theorem GET_pageToken_bypass (req : Request) (cache : Cache) (fetch : FetchResult) (now : ℤ)
    (s : String) (hp : req.pageToken = some s) (hs : s ≠ "") :
    (GET req cache fetch now).cache = cache
  ∧ (∀ mta, (GET req cache fetch now).resp.meta = some mta → mta.cacheHit = false)
  ∧ ((GET req cache fetch now).resp.success = true →
      (GET req cache fetch now).resp.data = fetch.cafes) := by
  simp only [GET, hp]
  rw [if_neg hs]
  split
  · refine ⟨rfl, ?_, ?_⟩
    · intro mta hmta
      exact absurd hmta (by simp)
    · intro hsucc
      exact absurd hsucc (by simp)
  · refine ⟨?_, ?_, fun _ => rfl⟩
    · simp [servedFromProvider]
    · intro mta hmta
      simp only [servedFromProvider, Option.some.injEq] at hmta
      rw [← hmta]

/-- Witness for C6 (amended): a paginated request over the empty cache
leaves it empty and reports no cache hit. -/
theorem GET_pageToken_bypass_witness :
    (⟨some "1", some "1", none, none, some "tok"⟩ : Request).pageToken = some "tok"
  ∧ "tok" ≠ ""
  ∧ (GET ⟨some "1", some "1", none, none, some "tok"⟩ [] frEmpty 0).cache = []
  ∧ (∀ mta, (GET ⟨some "1", some "1", none, none, some "tok"⟩ [] frEmpty 0).resp.meta = some mta →
      mta.cacheHit = false) := by
  have h := GET_pageToken_bypass ⟨some "1", some "1", none, none, some "tok"⟩ [] frEmpty 0
    "tok" rfl (by decide)
  exact ⟨rfl, by decide, h.1, h.2.1⟩

/-- A café record for the pagination counterexample. -/
def cafeCx : Cafe := ⟨1, "g", "n", "a", 0, 0, 0, 1, "d", 1, "w", [], 80, false, true, none⟩

/-- A provider outcome with one café. -/
def frOne : FetchResult := ⟨[cafeCx], none⟩

/-- A request whose `pageToken` parameter is present but empty. -/
def reqEmptyToken : Request := ⟨some "1", some "1", none, none, some ""⟩

/-- Counterexample to C6 as stated: a request in which `pageToken` is
present (with the empty value) does populate the cache — the handler
coerces the empty token to `undefined` and treats the request as
non-paginated, so the cache grows from empty to one entry. -/
theorem GET_pageToken_bypass_cx :
    reqEmptyToken.pageToken = some ""
  ∧ (GET reqEmptyToken [] frOne 0).cache.length = 1 := by
  refine ⟨rfl, ?_⟩
  have h1 : jsParseFloat "1" = JSNum.num 1 := jsParseFloat_one
  have ho : orElse (some "1") "0" = "1" := by simp [orElse]
  simp [GET, reqEmptyToken, ho, h1, jsTruthy, servedFromProvider, MemoryCache.get,
    mapFind?, MemoryCache.set, mapSet, frOne]

/-! ### Claim theorems: the cache key builder -/

@[simp] theorem natStr_data (n : ℕ) : (natStr n).data = natRepr n := rfl

@[simp] theorem mk_data (l : List Char) : (String.mk l).data = l := rfl

/-- Splitting a concatenation at a separator character that occurs in
neither left part. -/
theorem append_sep_inj (c : Char) :
    ∀ (l₁ l₂ r₁ r₂ : List Char), c ∉ l₁ → c ∉ l₂ →
      l₁ ++ c :: r₁ = l₂ ++ c :: r₂ → l₁ = l₂ ∧ r₁ = r₂ := by
  intro l₁
  induction l₁ with
  | nil =>
    intro l₂ r₁ r₂ _ h2 h
    cases l₂ with
    | nil => simpa using h
    | cons y t =>
      simp only [List.nil_append, List.cons_append, List.cons.injEq] at h
      exact absurd (by rw [h.1]; exact List.mem_cons_self y t) h2
  | cons x t ih =>
    intro l₂ r₁ r₂ h1 h2 h
    cases l₂ with
    | nil =>
      simp only [List.cons_append, List.nil_append, List.cons.injEq] at h
      exact absurd (by rw [← h.1]; exact List.mem_cons_self x t) h1
    | cons y u =>
      simp only [List.cons_append, List.cons.injEq] at h
      obtain ⟨hxy, h⟩ := h
      have h1t : c ∉ t := fun hm => h1 (List.mem_cons_of_mem x hm)
      have h2u : c ∉ u := fun hm => h2 (List.mem_cons_of_mem y hm)
      obtain ⟨ht, hr⟩ := ih u r₁ r₂ h1t h2u h
      exact ⟨by rw [hxy, ht], hr⟩

theorem pad3_digits (k : ℕ) (c : Char) (hc : c ∈ pad3 k) :
    ∃ d, d < 10 ∧ c = digitChar d := by
  simp only [pad3, List.mem_cons, List.not_mem_nil, or_false] at hc
  rcases hc with h | h | h
  · exact ⟨k / 100 % 10, Nat.mod_lt _ (by norm_num), h⟩
  · exact ⟨k / 10 % 10, Nat.mod_lt _ (by norm_num), h⟩
  · exact ⟨k % 10, Nat.mod_lt _ (by norm_num), h⟩

theorem digitChar_inj : ∀ d₁ < 10, ∀ d₂ < 10, digitChar d₁ = digitChar d₂ → d₁ = d₂ := by
  decide

theorem pad3_inj (k₁ k₂ : ℕ) (h₁ : k₁ < 1000) (h₂ : k₂ < 1000)
    (h : pad3 k₁ = pad3 k₂) : k₁ = k₂ := by
  simp only [pad3, List.cons.injEq, and_true] at h
  have e1 := digitChar_inj _ (Nat.mod_lt _ (by norm_num)) _ (Nat.mod_lt _ (by norm_num)) h.1
  have e2 := digitChar_inj _ (Nat.mod_lt _ (by norm_num)) _ (Nat.mod_lt _ (by norm_num)) h.2.1
  have e3 := digitChar_inj _ (Nat.mod_lt _ (by norm_num)) _ (Nat.mod_lt _ (by norm_num)) h.2.2
  omega

theorem toFixed3_chars (q : ℚ) (c : Char) (hc : c ∈ (toFixed3 q).data) :
    c ≠ ',' ∧ c ≠ ':' := by
  simp only [toFixed3, String.data_append, mk_data, natStr_data, List.mem_append] at hc
  have hdig : (∃ d, d < 10 ∧ c = digitChar d) → c ≠ ',' ∧ c ≠ ':' := by
    rintro ⟨d, hd, rfl⟩
    exact ⟨(digitChar_ne d hd).1, (digitChar_ne d hd).2.1⟩
  rcases hc with ((hc | hc) | hc) | hc
  · rcases (show c ∈ (if q < 0 then ("-" : String) else "").data from hc) with h
    by_cases hq : q < 0 <;> simp [hq] at h
    · rw [h]; decide
  · exact hdig (natRepr_digits _ _ hc)
  · rcases (show c ∈ (("." : String)).data from hc) with h
    simp at h
    rw [h]; decide
  · exact hdig (pad3_digits _ _ hc)

theorem jsToFixed3_chars (x : JSNum) (c : Char) (hc : c ∈ (jsToFixed3 x).data) :
    c ≠ ',' ∧ c ≠ ':' := by
  match x with
  | .nan =>
    simp only [jsToFixed3] at hc
    fin_cases hc <;> decide
  | .inf b =>
    match b with
    | false =>
      simp only [jsToFixed3] at hc
      fin_cases hc <;> decide
    | true =>
      simp only [jsToFixed3] at hc
      fin_cases hc <;> decide
  | .num q => exact toFixed3_chars q c hc

theorem radiusRepr_chars (r : Option ℤ) (c : Char) (hc : c ∈ (radiusRepr r).data) :
    c ≠ ':' := by
  match r with
  | none =>
    simp only [radiusRepr] at hc
    fin_cases hc <;> decide
  | some z =>
    simp only [radiusRepr, intStr, String.data_append, natStr_data, List.mem_append] at hc
    rcases hc with hc | hc
    · by_cases hz : z < 0 <;> simp [hz] at hc
      · rw [hc]; decide
    · obtain ⟨d, hd, rfl⟩ := natRepr_digits _ _ hc
      exact (digitChar_ne d hd).2.1

/-- Keys built by `getCacheKey` determine their four components. -/
theorem getCacheKey_parts (p q : SearchParams) (h : getCacheKey p = getCacheKey q) :
    jsToFixed3 p.latitude = jsToFixed3 q.latitude
  ∧ jsToFixed3 p.longitude = jsToFixed3 q.longitude
  ∧ radiusRepr p.radius = radiusRepr q.radius
  ∧ p.query = q.query := by
  have hd := congrArg String.data h
  simp only [getCacheKey, String.data_append, List.append_assoc] at hd
  simp only [List.cons_append, List.nil_append, List.singleton_append,
    List.cons.injEq, true_and] at hd
  obtain ⟨hlat, hrest⟩ := append_sep_inj ','
    (jsToFixed3 p.latitude).data (jsToFixed3 q.latitude).data _ _
    (fun hm => (jsToFixed3_chars _ _ hm).1 rfl)
    (fun hm => (jsToFixed3_chars _ _ hm).1 rfl) hd
  obtain ⟨hlng, hrest2⟩ := append_sep_inj ':'
    (jsToFixed3 p.longitude).data (jsToFixed3 q.longitude).data _ _
    (fun hm => (jsToFixed3_chars _ _ hm).2 rfl)
    (fun hm => (jsToFixed3_chars _ _ hm).2 rfl) hrest
  obtain ⟨hrad, hq⟩ := append_sep_inj ':'
    (radiusRepr p.radius).data (radiusRepr q.radius).data _ _
    (fun hm => radiusRepr_chars _ _ hm rfl)
    (fun hm => radiusRepr_chars _ _ hm rfl) hrest2
  exact ⟨String.ext hlat, String.ext hlng, String.ext hrad, String.ext hq⟩

theorem natRepr_head_ne_dash (n : ℕ) (c : Char) (l : List Char)
    (h : natRepr n = c :: l) : c ≠ '-' := by
  have hm : c ∈ natRepr n := by rw [h]; exact List.mem_cons_self c l
  obtain ⟨d, hd, rfl⟩ := natRepr_digits n c hm
  exact (digitChar_ne d hd).2.2.2

theorem dot_not_mem_natRepr (n : ℕ) : ('.' : Char) ∉ natRepr n := by
  intro hm
  obtain ⟨d, hd1, hd2⟩ := natRepr_digits _ _ hm
  exact (digitChar_ne d hd1).2.2.1 hd2.symm

/-- Equal `toFixed(3)` strings force equal rounded coordinates. -/
theorem toFixed3_eq_rounded3 (a b : ℚ) (h : toFixed3 a = toFixed3 b) :
    rounded3 a = rounded3 b := by
  have hd := congrArg String.data h
  simp only [toFixed3, String.data_append, mk_data, natStr_data, List.append_assoc,
    List.singleton_append] at hd
  by_cases ha : a < 0 <;> by_cases hb : b < 0
  · -- both negative
    simp only [if_pos ha, if_pos hb] at hd
    simp only [List.singleton_append, List.cons.injEq, true_and] at hd
    obtain ⟨h1, h2⟩ := append_sep_inj '.' _ _ _ _
      (dot_not_mem_natRepr _) (dot_not_mem_natRepr _) hd
    have hquot := natRepr_injective h1
    have hmod := pad3_inj _ _ (Nat.mod_lt _ (by norm_num)) (Nat.mod_lt _ (by norm_num)) h2
    simp only [rounded3, if_pos ha, if_pos hb, neg_inj, Nat.cast_inj]
    omega
  · -- a negative, b not: impossible
    exfalso
    simp only [if_pos ha, if_neg hb] at hd
    simp only [List.singleton_append, List.nil_append] at hd
    cases hn : natRepr ((⌊b * 1000 + 1 / 2⌋).toNat / 1000) with
    | nil => exact natRepr_ne_nil _ hn
    | cons c l =>
      rw [hn] at hd
      simp only [List.cons_append, List.cons.injEq] at hd
      exact natRepr_head_ne_dash _ _ _ hn hd.1.symm
  · -- b negative, a not: impossible
    exfalso
    simp only [if_neg ha, if_pos hb] at hd
    simp only [List.singleton_append, List.nil_append] at hd
    cases hn : natRepr ((⌊a * 1000 + 1 / 2⌋).toNat / 1000) with
    | nil => exact natRepr_ne_nil _ hn
    | cons c l =>
      rw [hn] at hd
      simp only [List.cons_append, List.cons.injEq] at hd
      exact natRepr_head_ne_dash _ _ _ hn hd.1
  · -- both non-negative
    simp only [if_neg ha, if_neg hb] at hd
    simp only [List.nil_append] at hd
    obtain ⟨h1, h2⟩ := append_sep_inj '.' _ _ _ _
      (dot_not_mem_natRepr _) (dot_not_mem_natRepr _) hd
    have hquot := natRepr_injective h1
    have hmod := pad3_inj _ _ (Nat.mod_lt _ (by norm_num)) (Nat.mod_lt _ (by norm_num)) h2
    simp only [rounded3, if_neg ha, if_neg hb, Nat.cast_inj]
    omega

/-- Keys differ whenever one coordinate rounds differently. -/
theorem getCacheKey_ne_of_rounded3_ne (p q : SearchParams)
    (h : (∃ a b, p.latitude = JSNum.num a ∧ q.latitude = JSNum.num b ∧ rounded3 a ≠ rounded3 b)
       ∨ (∃ a b, p.longitude = JSNum.num a ∧ q.longitude = JSNum.num b ∧ rounded3 a ≠ rounded3 b)) :
    getCacheKey p ≠ getCacheKey q := by
  intro hk
  have parts := getCacheKey_parts p q hk
  rcases h with ⟨a, b, ha, hb, hne⟩ | ⟨a, b, ha, hb, hne⟩
  · rw [ha, hb] at parts
    exact hne (toFixed3_eq_rounded3 a b parts.1)
  · rw [ha, hb] at parts
    exact hne (toFixed3_eq_rounded3 a b parts.2.1)

/-- Claim C3 (amended): `getCacheKey` is a pure function of its
arguments; two parameter records with equal radius and query produce
equal keys whenever their coordinates have equal `toFixed(3)`
renderings, and produce different keys whenever a coordinate rounds to
a different 3-decimal value.  (Perturbations smaller than 0.0005
degrees can still change the key when they cross a 0.001 rounding
boundary — see the counterexample.) -/
theorem getCacheKey_spec (p q : SearchParams)
    (hr : p.radius = q.radius) (hq : p.query = q.query) :
    (jsToFixed3 p.latitude = jsToFixed3 q.latitude →
      jsToFixed3 p.longitude = jsToFixed3 q.longitude →
      getCacheKey p = getCacheKey q)
  ∧ (∀ a b, p.latitude = JSNum.num a → q.latitude = JSNum.num b →
      rounded3 a ≠ rounded3 b → getCacheKey p ≠ getCacheKey q)
  ∧ (∀ a b, p.longitude = JSNum.num a → q.longitude = JSNum.num b →
      rounded3 a ≠ rounded3 b → getCacheKey p ≠ getCacheKey q) := by
  refine ⟨?_, ?_, ?_⟩
  · intro h1 h2
    simp only [getCacheKey, h1, h2, hr, hq]
  · intro a b ha hb hne
    exact getCacheKey_ne_of_rounded3_ne p q (Or.inl ⟨a, b, ha, hb, hne⟩)
  · intro a b ha hb hne
    exact getCacheKey_ne_of_rounded3_ne p q (Or.inr ⟨a, b, ha, hb, hne⟩)

/-- Two parameter records 0.0002 degrees of latitude apart. -/
def paramsLo : SearchParams := ⟨JSNum.num (4 / 10000), JSNum.num 0, some 5000, ""⟩

/-- See `paramsLo`. -/
def paramsHi : SearchParams := ⟨JSNum.num (6 / 10000), JSNum.num 0, some 5000, ""⟩

/-- Witness for C3 (amended): the two keys of `paramsLo`/`paramsHi`
differ because latitude 0.0004 rounds to 0.000 and 0.0006 to 0.001. -/
theorem getCacheKey_spec_witness :
    paramsLo.radius = paramsHi.radius
  ∧ paramsLo.query = paramsHi.query
  ∧ getCacheKey paramsLo ≠ getCacheKey paramsHi :=
  ⟨rfl, rfl,
    (getCacheKey_spec paramsLo paramsHi rfl rfl).2.1 (4 / 10000) (6 / 10000) rfl rfl
      (by norm_num [rounded3])⟩

/-- Counterexample to C3 as stated: the latitudes of `paramsLo` and
`paramsHi` differ by 0.0002 < 0.0005 degrees (radius and query equal),
yet the produced keys differ, because the two latitudes round to
different 3-decimal grid points. -/
theorem getCacheKey_spec_cx :
    (6 / 10000 : ℚ) - 4 / 10000 < 5 / 10000
  ∧ paramsLo.radius = paramsHi.radius
  ∧ paramsLo.query = paramsHi.query
  ∧ getCacheKey paramsLo ≠ getCacheKey paramsHi := by
  refine ⟨by norm_num, rfl, rfl, ?_⟩
  exact getCacheKey_ne_of_rounded3_ne paramsLo paramsHi
    (Or.inl ⟨4 / 10000, 6 / 10000, rfl, rfl, by norm_num [rounded3]⟩)

end LatteLocator
